import Mathlib

/-!
Verification of the note-remapping core and conversion pipeline of the
Koala ↔ Ableton MIDI converter (koala_ableton_midi_converter.py).

The Python functions are shallowly embedded: MIDI note numbers are
modelled as `Int` (Python integers are unbounded), tuples as products,
exceptions as `Except String`, and the in-place mutation of MIDI
messages as the construction of a new event list.
-/

/-- Embedding of `OCTAVE_SHIFT = 36` (3 octaves). -/
def OCTAVE_SHIFT : Int := 36

/-- Embedding of `remap_within_32(w)`: the if-chain of eight 4-wide blocks. -/
def remap_within_32 (w : Int) : Int :=
  if 0 ≤ w ∧ w ≤ 3 then w + 12
  else if 12 ≤ w ∧ w ≤ 15 then w - 12
  else if 4 ≤ w ∧ w ≤ 7 then w + 4
  else if 8 ≤ w ∧ w ≤ 11 then w - 4
  else if 16 ≤ w ∧ w ≤ 19 then w + 12
  else if 28 ≤ w ∧ w ≤ 31 then w - 12
  else if 20 ≤ w ∧ w ≤ 23 then w + 4
  else if 24 ≤ w ∧ w ≤ 27 then w - 4
  else w

/-- Embedding of `remap_note(note)`: out-of-range notes pass through with
`False`; otherwise remap the residue mod 32 and report whether the value
moved. `Int.emod` agrees with Python `%` for a positive modulus. -/
def remap_note (note : Int) : Int × Bool :=
  if note < 0 ∨ note > 127 then (note, false)
  else
    let base := note - note % 32
    let w := note % 32
    let new_note := base + remap_within_32 w
    (new_note, decide (new_note ≠ note))

/-- Embedding of `clamp_midi(n)`. -/
def clamp_midi (n : Int) : Int × Bool :=
  if n < 0 then (0, true)
  else if n > 127 then (127, true)
  else (n, false)

/-- Embedding of `forward_koala_to_ableton(note)`: remap, then shift up by
`OCTAVE_SHIFT` and clamp, but only when the remap changed the note. -/
def forward_koala_to_ableton (note : Int) : Int × Bool × Bool :=
  let r := remap_note note
  if r.2 then
    let r2 := clamp_midi (r.1 + OCTAVE_SHIFT)
    (r2.1, true, r2.2)
  else
    (note, false, false)

/-- Embedding of `inverse_ableton_to_koala(note)`: two candidates, each
validated by re-running the forward transform; `n2` (the unshifted
hypothesis) is `none` exactly when `note - OCTAVE_SHIFT` is out of range.
`Option.getD` is only reached with `n2 = some _` (when `ok2` is true). -/
def inverse_ableton_to_koala (note : Int) : Int × Bool :=
  let n1 := note
  let n2 : Option Int :=
    if 0 ≤ note - OCTAVE_SHIFT ∧ note - OCTAVE_SHIFT ≤ 127 then
      some (remap_note (note - OCTAVE_SHIFT)).1
    else none
  let ok1 : Bool := (forward_koala_to_ableton n1).1 == note
  let ok2 : Bool :=
    match n2 with
    | some c => (forward_koala_to_ableton c).1 == note
    | none => false
  if ok2 && ok1 then (n2.getD n1, true)
  else if ok2 then (n2.getD n1, true)
  else if ok1 then (n1, false)
  else (n1, false)

/-- Helper: the full forward/inverse round trip checked on all 128 MIDI notes. -/
theorem round_trip_ball : ∀ m : Nat, m < 128 →
    ((forward_koala_to_ableton (m : Int)).2.2 = false →
      inverse_ableton_to_koala (forward_koala_to_ableton (m : Int)).1 =
        ((m : Int), (forward_koala_to_ableton (m : Int)).2.1)) := by
  decide

/-- C1: for every note n in [0,127] such that forward(n) does not clamp,
inverse applied to forward(n)'s result recovers exactly (n, forwardChanged). -/
theorem forward_inverse_round_trip (n : Int) (h0 : 0 ≤ n) (h1 : n ≤ 127)
    (hnc : (forward_koala_to_ableton n).2.2 = false) :
    inverse_ableton_to_koala (forward_koala_to_ableton n).1 =
      (n, (forward_koala_to_ableton n).2.1) := by
  have hn : n = ((n.toNat : Nat) : Int) := (Int.toNat_of_nonneg h0).symm
  rw [hn] at hnc ⊢
  exact round_trip_ball n.toNat (by omega) hnc

/-- Witness for C1 at n = 0: forward(0) = (48, true, false) and
inverse(48) = (0, true). -/
theorem forward_inverse_round_trip_witness :
    inverse_ableton_to_koala (forward_koala_to_ableton 0).1 =
      ((0 : Int), (forward_koala_to_ableton 0).2.1) :=
  forward_inverse_round_trip 0 (by decide) (by decide) (by decide)

/-- Helper: involution and closure of the residue permutation, checked on all
32 residues. -/
theorem permute_ball : ∀ m : Nat, m < 32 →
    ((0 ≤ remap_within_32 (m : Int) ∧ remap_within_32 (m : Int) ≤ 31) ∧
      remap_within_32 (remap_within_32 (m : Int)) = (m : Int)) := by
  decide

/-- C2: the permutation table is a total involution on [0,31]: every residue
maps into [0,31], and applying the table twice is the identity. -/
theorem remap_within_32_involution (w : Int) (h0 : 0 ≤ w) (h1 : w ≤ 31) :
    (0 ≤ remap_within_32 w ∧ remap_within_32 w ≤ 31) ∧
      remap_within_32 (remap_within_32 w) = w := by
  have hw : w = ((w.toNat : Nat) : Int) := (Int.toNat_of_nonneg h0).symm
  rw [hw]
  exact permute_ball w.toNat (by omega)

/-- Witness for C2 at w = 5: remap_within_32 5 = 9 lies in [0,31] and maps
back to 5. -/
theorem remap_within_32_involution_witness :
    (0 ≤ remap_within_32 5 ∧ remap_within_32 5 ≤ 31) ∧
      remap_within_32 (remap_within_32 5) = 5 :=
  remap_within_32_involution 5 (by decide) (by decide)

/-- Helper: absence of fixed points and the always-shift consequence, checked
on all residues and all notes. -/
theorem no_fixed_point_ball : ∀ m : Nat, m < 128 →
    ((m < 32 → remap_within_32 (m : Int) ≠ (m : Int)) ∧
      (remap_note (m : Int)).2 = true ∧
      forward_koala_to_ableton (m : Int) =
        ((clamp_midi ((remap_note (m : Int)).1 + OCTAVE_SHIFT)).1, true,
          (clamp_midi ((remap_note (m : Int)).1 + OCTAVE_SHIFT)).2)) := by
  decide

/-- C4: no residue in [0,31] is a fixed point of the permutation, and
consequently every note in [0,127] has wasChanged = true under remap_note,
so forward always takes the shift-and-clamp branch, never the pass-through. -/
theorem remap_no_fixed_point (w n : Int) (hw0 : 0 ≤ w) (hw1 : w ≤ 31)
    (hn0 : 0 ≤ n) (hn1 : n ≤ 127) :
    remap_within_32 w ≠ w ∧
      (remap_note n).2 = true ∧
      forward_koala_to_ableton n =
        ((clamp_midi ((remap_note n).1 + OCTAVE_SHIFT)).1, true,
          (clamp_midi ((remap_note n).1 + OCTAVE_SHIFT)).2) := by
  have hw : w = ((w.toNat : Nat) : Int) := (Int.toNat_of_nonneg hw0).symm
  have hn : n = ((n.toNat : Nat) : Int) := (Int.toNat_of_nonneg hn0).symm
  rw [hw, hn]
  refine ⟨(no_fixed_point_ball w.toNat (by omega)).1 (by omega), ?_, ?_⟩
  · exact (no_fixed_point_ball n.toNat (by omega)).2.1
  · exact (no_fixed_point_ball n.toNat (by omega)).2.2

/-- Witness for C4 at w = 0, n = 0: remap_within_32 0 = 12 ≠ 0, remap_note 0
changes, and forward(0) takes the shift branch. -/
theorem remap_no_fixed_point_witness :
    remap_within_32 0 ≠ 0 ∧
      (remap_note 0).2 = true ∧
      forward_koala_to_ableton 0 =
        ((clamp_midi ((remap_note 0).1 + OCTAVE_SHIFT)).1, true,
          (clamp_midi ((remap_note 0).1 + OCTAVE_SHIFT)).2) :=
  remap_no_fixed_point 0 0 (by decide) (by decide) (by decide) (by decide)

/-- C7: every note outside [0,127] is passed through remap_note unchanged,
with wasChanged = false. -/
theorem remap_note_out_of_range (n : Int) (h : n < 0 ∨ n > 127) :
    remap_note n = (n, false) := by
  unfold remap_note
  rw [if_pos h]

/-- Witness for C7 at n = -1. -/
theorem remap_note_out_of_range_witness : remap_note (-1) = (-1, false) :=
  remap_note_out_of_range (-1) (Or.inl (by decide))

/-- C8: forward(119) = (127, true, true): residue 23 remaps to 27, base 96
gives 123, the +36 shift reaches 159 which clamps to 127. -/
theorem forward_119_clamps : forward_koala_to_ableton 119 = (127, true, true) := by
  decide

/-- C3: inverse resolves its two candidates in this exact priority order:
when candidate n2 (remap_note of note-36, defined only for note-36 in
[0,127]) validates under forward, the result is (n2, true) regardless of
whether n1 also validates; else when n1 = note validates, (n1, false);
else the fallback (n1, false). -/
theorem inverse_resolution_order (note : Int) :
    inverse_ableton_to_koala note =
      if 0 ≤ note - OCTAVE_SHIFT ∧ note - OCTAVE_SHIFT ≤ 127 then
        (if (forward_koala_to_ableton (remap_note (note - OCTAVE_SHIFT)).1).1 = note then
          ((remap_note (note - OCTAVE_SHIFT)).1, true)
        else if (forward_koala_to_ableton note).1 = note then (note, false)
        else (note, false))
      else
        (if (forward_koala_to_ableton note).1 = note then (note, false)
        else (note, false)) := by
  unfold inverse_ableton_to_koala
  by_cases h2 : 0 ≤ note - OCTAVE_SHIFT ∧ note - OCTAVE_SHIFT ≤ 127
  · simp only [if_pos h2]
    by_cases hok2 : (forward_koala_to_ableton (remap_note (note - OCTAVE_SHIFT)).1).1 = note
    · by_cases hok1 : (forward_koala_to_ableton note).1 = note
      · simp [hok1, hok2]
      · simp [hok1, hok2]
    · by_cases hok1 : (forward_koala_to_ableton note).1 = note
      · simp [hok1, hok2]
      · simp [hok1, hok2]
  · simp only [if_neg h2]
    by_cases hok1 : (forward_koala_to_ableton note).1 = note
    · simp [hok1]
    · simp [hok1]

/-- Kind of a MIDI message as convert_midi classifies it: note_on, note_off,
or anything else (the container is otherwise opaque to the core). -/
inductive MsgKind
  | noteOn
  | noteOff
  | other

deriving instance DecidableEq for MsgKind

/-- A timed MIDI event: the note field rewritten by convert_midi, plus the
fields the spec requires to be left untouched (timing, velocity, channel). -/
structure MidiEvent where
  kind : MsgKind
  time : Int
  channel : Int
  velocity : Int
  note : Int

deriving instance DecidableEq for MidiEvent

/-- Embedding of the test `msg.type in ("note_on", "note_off")`. -/
def is_note_msg (m : MidiEvent) : Bool :=
  match m.kind with
  | MsgKind.noteOn => true
  | MsgKind.noteOff => true
  | MsgKind.other => false

/-- Embedding of one iteration of convert_midi's inner loop: the message with
its note field possibly rewritten, and the updated (total, changed, clamped)
counters; an unknown mode raises ValueError. -/
def convert_msg (mode : String) (m : MidiEvent) (acc : Nat × Nat × Nat) :
    Except String (MidiEvent × (Nat × Nat × Nat)) :=
  if is_note_msg m then
    let old := m.note
    if mode = "K2A" then
      let r := forward_koala_to_ableton old
      let m2 := if r.2.1 then { m with note := r.1 } else m
      Except.ok (m2, (acc.1 + 1, acc.2.1 + (if r.2.1 then 1 else 0),
        acc.2.2 + (if r.2.2 then 1 else 0)))
    else if mode = "A2K" then
      let r := inverse_ableton_to_koala old
      let m2 := if r.2 then { m with note := r.1 } else m
      Except.ok (m2, (acc.1 + 1, acc.2.1 + (if r.2 then 1 else 0), acc.2.2))
    else
      Except.error ("Unknown mode: " ++ mode)
  else
    Except.ok (m, acc)

/-- convert_midi's inner loop over one track's messages. -/
def convert_track (mode : String) (acc : Nat × Nat × Nat) :
    List MidiEvent → Except String (List MidiEvent × (Nat × Nat × Nat))
  | [] => Except.ok ([], acc)
  | m :: rest =>
    match convert_msg mode m acc with
    | Except.error e => Except.error e
    | Except.ok (m2, acc2) =>
      match convert_track mode acc2 rest with
      | Except.error e => Except.error e
      | Except.ok (rest2, acc3) => Except.ok (m2 :: rest2, acc3)

/-- convert_midi's outer loop over the file's tracks. -/
def convert_tracks (mode : String) (acc : Nat × Nat × Nat) :
    List (List MidiEvent) → Except String (List (List MidiEvent) × (Nat × Nat × Nat))
  | [] => Except.ok ([], acc)
  | t :: rest =>
    match convert_track mode acc t with
    | Except.error e => Except.error e
    | Except.ok (t2, acc2) =>
      match convert_tracks mode acc2 rest with
      | Except.error e => Except.error e
      | Except.ok (rest2, acc3) => Except.ok (t2 :: rest2, acc3)

/-- Embedding of `convert_midi(in_path, out_path, mode)`: the parsed input is
the track list, the returned track list is what `mid.save` writes, paired
with the (total, changed, clamped) counters; a raised ValueError is the
error case and produces no output artifact. -/
def convert_midi (tracks : List (List MidiEvent)) (mode : String) :
    Except String (List (List MidiEvent) × (Nat × Nat × Nat)) :=
  convert_tracks mode (0, 0, 0) tracks

theorem convert_msg_unknown_mode (mode : String) (m : MidiEvent) (acc : Nat × Nat × Nat)
    (h1 : mode ≠ "K2A") (h2 : mode ≠ "A2K") (hm : is_note_msg m = true) :
    convert_msg mode m acc = Except.error ("Unknown mode: " ++ mode) := by
  unfold convert_msg
  simp [hm, h1, h2]

theorem convert_msg_not_note (mode : String) (m : MidiEvent) (acc : Nat × Nat × Nat)
    (hm : is_note_msg m = false) :
    convert_msg mode m acc = Except.ok (m, acc) := by
  unfold convert_msg
  simp [hm]

theorem convert_track_unknown_mode (mode : String) (h1 : mode ≠ "K2A") (h2 : mode ≠ "A2K")
    (track : List MidiEvent) (h : ∃ m ∈ track, is_note_msg m = true) :
    ∀ acc, convert_track mode acc track = Except.error ("Unknown mode: " ++ mode) := by
  induction track with
  | nil => simp at h
  | cons m rest ih =>
    intro acc
    rcases h with ⟨m0, hm0, hnote⟩
    by_cases hm : is_note_msg m = true
    · unfold convert_track
      rw [convert_msg_unknown_mode mode m acc h1 h2 hm]
    · have hrest : m0 ∈ rest := by
        rcases List.mem_cons.mp hm0 with h0 | h0
        · exact absurd (h0 ▸ hnote) hm
        · exact h0
      unfold convert_track
      rw [convert_msg_not_note mode m acc (by simpa using hm)]
      dsimp only
      rw [ih ⟨m0, hrest, hnote⟩ acc]

theorem convert_track_no_note (mode : String) (track : List MidiEvent)
    (h : ∀ m ∈ track, is_note_msg m = false) :
    ∀ acc, convert_track mode acc track = Except.ok (track, acc) := by
  induction track with
  | nil => intro acc; rfl
  | cons m rest ih =>
    intro acc
    unfold convert_track
    rw [convert_msg_not_note mode m acc (h m (List.mem_cons_self m rest))]
    dsimp only
    rw [ih (fun x hx => h x (List.mem_cons_of_mem m hx)) acc]

theorem convert_tracks_unknown_mode (mode : String) (h1 : mode ≠ "K2A") (h2 : mode ≠ "A2K")
    (tracks : List (List MidiEvent))
    (h : ∃ t ∈ tracks, ∃ m ∈ t, is_note_msg m = true) :
    ∀ acc, convert_tracks mode acc tracks = Except.error ("Unknown mode: " ++ mode) := by
  induction tracks with
  | nil => simp at h
  | cons t rest ih =>
    intro acc
    rcases h with ⟨t0, ht0, hnote⟩
    by_cases ht : ∃ m ∈ t, is_note_msg m = true
    · unfold convert_tracks
      rw [convert_track_unknown_mode mode h1 h2 t ht acc]
    · push_neg at ht
      have hrest : t0 ∈ rest := by
        rcases List.mem_cons.mp ht0 with h0 | h0
        · rcases hnote with ⟨mm, hmm, hmmnote⟩
          exact absurd hmmnote (ht mm (h0 ▸ hmm))
        · exact h0
      unfold convert_tracks
      rw [convert_track_no_note mode t (fun x hx => by simpa using ht x hx) acc]
      dsimp only
      rw [ih ⟨t0, hrest, hnote⟩ acc]

/-- The note transform convert_midi applies per Direction: for mode "K2A"
the forward result and its did_change flag; otherwise the inverse result
and its did_change flag (and for both transforms the result equals the
input whenever the flag is false). -/
def note_outcome (mode : String) (n : Int) : Int × Bool :=
  if mode = "K2A" then
    ((forward_koala_to_ableton n).1, (forward_koala_to_ableton n).2.1)
  else
    inverse_ableton_to_koala n

/-- How one output event of convert_midi relates to its input event: kind,
timing, channel and velocity are identical; a non-note event is identical
outright; a note-on/note-off event carries exactly the note the active
Direction's transform dictates — overwritten with the transform's result
precisely when its did_change flag is set — and is left entirely untouched
whenever the transform's output does not differ from the original note. -/
def event_frame_ok (mode : String) (a b : MidiEvent) : Prop :=
  b.kind = a.kind ∧ b.time = a.time ∧ b.channel = a.channel ∧
  b.velocity = a.velocity ∧ (is_note_msg a = false → b = a) ∧
  (is_note_msg a = true →
    b.note = (if (note_outcome mode a.note).2 then (note_outcome mode a.note).1
              else a.note) ∧
    ((note_outcome mode a.note).1 = a.note → b = a))

/-- Helper: a non-note event left as-is satisfies the frame relation. -/
theorem event_frame_ok_not_note (mode : String) (m : MidiEvent)
    (hm : is_note_msg m = false) : event_frame_ok mode m m :=
  ⟨rfl, rfl, rfl, rfl, fun _ => rfl,
   fun h => absurd (hm.symm.trans h) (by decide)⟩

/-- Helper: a note event rewritten per the transform's flag satisfies the
frame relation. -/
theorem event_frame_ok_note (mode : String) (m : MidiEvent)
    (hm : is_note_msg m = true) :
    event_frame_ok mode m
      (if (note_outcome mode m.note).2 then { m with note := (note_outcome mode m.note).1 }
       else m) := by
  split
  · rename_i hfl
    refine ⟨rfl, rfl, rfl, rfl, fun hf => absurd (hm.symm.trans hf) (by decide),
      fun _ => ⟨?_, ?_⟩⟩
    · rw [if_pos hfl]
    · intro e
      show { m with note := (note_outcome mode m.note).1 } = m
      rw [e]
  · rename_i hfl
    refine ⟨rfl, rfl, rfl, rfl, fun _ => rfl, fun _ => ⟨?_, fun _ => rfl⟩⟩
    rw [if_neg hfl]

/-- Helper: one loop iteration's output event satisfies the frame relation. -/
theorem convert_msg_frame (mode : String) (m m2 : MidiEvent) (acc acc2 : Nat × Nat × Nat)
    (h : convert_msg mode m acc = Except.ok (m2, acc2)) : event_frame_ok mode m m2 := by
  unfold convert_msg at h
  split at h
  · rename_i hm
    split at h
    · rename_i hk
      dsimp only at h
      simp only [Except.ok.injEq, Prod.mk.injEq] at h
      obtain ⟨hm2, -⟩ := h
      subst hm2
      have hfr := event_frame_ok_note mode m hm
      unfold note_outcome at hfr
      rw [if_pos hk] at hfr
      exact hfr
    · rename_i hk
      split at h
      · rename_i ha
        dsimp only at h
        simp only [Except.ok.injEq, Prod.mk.injEq] at h
        obtain ⟨hm2, -⟩ := h
        subst hm2
        have hfr := event_frame_ok_note mode m hm
        unfold note_outcome at hfr
        rw [if_neg hk] at hfr
        exact hfr
      · simp at h
  · rename_i hm
    simp only [Except.ok.injEq, Prod.mk.injEq] at h
    obtain ⟨hm2, -⟩ := h
    subst hm2
    exact event_frame_ok_not_note mode m (by simpa using hm)

/-- Helper: the frame relation holds pointwise along one track. -/
theorem convert_track_frame (mode : String) (track out : List MidiEvent) :
    ∀ acc acc2, convert_track mode acc track = Except.ok (out, acc2) →
      List.Forall₂ (event_frame_ok mode) track out := by
  induction track generalizing out with
  | nil =>
    intro acc acc2 h
    unfold convert_track at h
    simp only [Except.ok.injEq, Prod.mk.injEq] at h
    rw [← h.1]
    exact List.Forall₂.nil
  | cons m rest ih =>
    intro acc acc2 h
    unfold convert_track at h
    cases hmsg : convert_msg mode m acc with
    | error e => rw [hmsg] at h; simp at h
    | ok p =>
      rw [hmsg] at h
      obtain ⟨m2, accm⟩ := p
      dsimp only at h
      cases htr : convert_track mode accm rest with
      | error e => rw [htr] at h; simp at h
      | ok q =>
        rw [htr] at h
        obtain ⟨rest2, accr⟩ := q
        dsimp only at h
        simp only [Except.ok.injEq, Prod.mk.injEq] at h
        rw [← h.1]
        exact List.Forall₂.cons (convert_msg_frame mode m m2 acc accm hmsg)
          (ih rest2 accm accr htr)

/-- Helper: the frame relation holds pointwise across all tracks. -/
theorem convert_tracks_frame (mode : String) (tracks out : List (List MidiEvent)) :
    ∀ acc acc2, convert_tracks mode acc tracks = Except.ok (out, acc2) →
      List.Forall₂ (List.Forall₂ (event_frame_ok mode)) tracks out := by
  induction tracks generalizing out with
  | nil =>
    intro acc acc2 h
    unfold convert_tracks at h
    simp only [Except.ok.injEq, Prod.mk.injEq] at h
    rw [← h.1]
    exact List.Forall₂.nil
  | cons t rest ih =>
    intro acc acc2 h
    unfold convert_tracks at h
    cases htr : convert_track mode acc t with
    | error e => rw [htr] at h; simp at h
    | ok p =>
      rw [htr] at h
      obtain ⟨t2, acct⟩ := p
      dsimp only at h
      cases hts : convert_tracks mode acct rest with
      | error e => rw [hts] at h; simp at h
      | ok q =>
        rw [hts] at h
        obtain ⟨rest2, accr⟩ := q
        dsimp only at h
        simp only [Except.ok.injEq, Prod.mk.injEq] at h
        rw [← h.1]
        exact List.Forall₂.cons (convert_track_frame mode t t2 acc acct htr)
          (ih rest2 acct accr hts)

/-- C6: for every input file and Direction, a successful conversion relates
input and output tracks pointwise: every event keeps its kind, timing,
channel and velocity, every non-note event is identical, and every
note-on/note-off event's note field equals the active transform's output —
rewritten only per the transform's change flag and left untouched whenever
the transform's output does not differ from the original note. -/
theorem convert_midi_frame (tracks out : List (List MidiEvent))
    (stats : Nat × Nat × Nat) (mode : String)
    (h : convert_midi tracks mode = Except.ok (out, stats)) :
    List.Forall₂ (List.Forall₂ (event_frame_ok mode)) tracks out :=
  convert_tracks_frame mode tracks out (0, 0, 0) stats h

/-- Witness for C6: converting one note-on of note 60 with mode K2A yields
the same event with note 84 = forward(60).result, and the frame relation
holds. -/
theorem convert_midi_frame_witness :
    List.Forall₂ (List.Forall₂ (event_frame_ok "K2A"))
      [[{ kind := MsgKind.noteOn, time := 0, channel := 0, velocity := 64, note := 60 }]]
      [[{ kind := MsgKind.noteOn, time := 0, channel := 0, velocity := 64, note := 84 }]] :=
  convert_midi_frame
    [[{ kind := MsgKind.noteOn, time := 0, channel := 0, velocity := 64, note := 60 }]]
    [[{ kind := MsgKind.noteOn, time := 0, channel := 0, velocity := 64, note := 84 }]]
    (1, 1, 0) "K2A" (by rfl)

/-- Counterexample for C5: for a file with no note-on/note-off events, an
unknown mode does not fail: convert_midi succeeds and writes an output
artifact (here the empty track list with zero counters). -/
theorem convert_midi_unknown_mode_counterexample :
    ("X" ≠ "K2A" ∧ "X" ≠ "A2K") ∧
      convert_midi ([] : List (List MidiEvent)) "X" = Except.ok ([], (0, 0, 0)) :=
  ⟨⟨by decide, by decide⟩, rfl⟩

/-- C5 (amended): for every input file containing at least one note-on or
note-off event and every mode that is neither "K2A" nor "A2K", convert_midi
fails with the unknown-mode ValueError and produces no output artifact. -/
theorem convert_midi_unknown_mode (tracks : List (List MidiEvent)) (mode : String)
    (h1 : mode ≠ "K2A") (h2 : mode ≠ "A2K")
    (h3 : ∃ t ∈ tracks, ∃ m ∈ t, is_note_msg m = true) :
    convert_midi tracks mode = Except.error ("Unknown mode: " ++ mode) :=
  convert_tracks_unknown_mode mode h1 h2 tracks h3 (0, 0, 0)

/-- Witness for C5 (amended): a single note-on event with mode "X" fails. -/
theorem convert_midi_unknown_mode_witness :
    convert_midi
      [[{ kind := MsgKind.noteOn, time := 0, channel := 0, velocity := 64, note := 60 }]]
      "X" = Except.error ("Unknown mode: " ++ "X") :=
  convert_midi_unknown_mode
    [[{ kind := MsgKind.noteOn, time := 0, channel := 0, velocity := 64, note := 60 }]]
    "X" (by decide) (by decide)
    ⟨_, List.mem_cons_self _ _, _, List.mem_cons_self _ _, rfl⟩

/-- The i-th backup candidate name of `safe_backup`: `<path>.bak`, then
`<path>.bak1`, `<path>.bak2`, ...; `Path.with_suffix(path.suffix + s)`
appends `s` to the full name, so the candidates are plain concatenations. -/
def bak_name (path : String) : Nat → String
  | 0 => path ++ ".bak"
  | i + 1 => path ++ ".bak" ++ toString (i + 1)

/-- The scan of `safe_backup`: from candidate index i upward, the first
candidate name not already present; the filesystem is modelled by the list
of existing names and the unbounded `while True` loop is given fuel. -/
def backup_scan (existing : List String) (path : String) : Nat → Nat → Option String
  | 0, _ => none
  | fuel + 1, i =>
    if bak_name path i ∈ existing then backup_scan existing path fuel (i + 1)
    else some (bak_name path i)

/-- Embedding of `safe_backup(path)`'s naming decision. Fuel
`existing.length + 1` covers every case a finite filesystem can reach,
since the candidates are pairwise distinct names. -/
def safe_backup (existing : List String) (path : String) : Option String :=
  backup_scan existing path (existing.length + 1) 0

/-- Helper: a successful scan returns a name that is not in use and whose
every earlier candidate (from the start index on) is in use. -/
theorem backup_scan_spec (existing : List String) (path : String) :
    ∀ fuel i b, backup_scan existing path fuel i = some b →
      b ∉ existing ∧ ∃ k, i ≤ k ∧ b = bak_name path k ∧
        ∀ j, i ≤ j → j < k → bak_name path j ∈ existing := by
  intro fuel
  induction fuel with
  | zero => intro i b h; simp [backup_scan] at h
  | succ fuel ih =>
    intro i b h
    unfold backup_scan at h
    split at h
    · rename_i hmem
      obtain ⟨hb, k, hik, hbk, hall⟩ := ih (i + 1) b h
      refine ⟨hb, k, by omega, hbk, ?_⟩
      intro j hij hjk
      by_cases hj : j = i
      · exact hj ▸ hmem
      · exact hall j (by omega) hjk
    · rename_i hmem
      simp only [Option.some.injEq] at h
      subst h
      exact ⟨hmem, i, le_refl i, rfl, fun j hij hjk => absurd hij (by omega)⟩

/-- Helper: the candidate after `<path>.bak` is `<path>.bak1`. -/
theorem bak_name_one (path : String) : bak_name path 1 = path ++ ".bak1" := by
  show (path ++ ".bak") ++ "1" = path ++ ".bak1"
  rw [String.append_assoc]
  congr 1

/-- C9: backup naming chooses the first unused candidate scanning upward from
`<path>.bak`, so whatever the set of files already on disk (in particular
after any sequence of earlier overwrite-conversions of the same source), the
chosen backup name is never an existing file; and when `<path>.bak` exists
(and `<path>.bak1` does not), the choice is `<path>.bak1`. -/
theorem safe_backup_never_overwrites (existing : List String) (path : String) :
    (∀ b, safe_backup existing path = some b →
      b ∉ existing ∧ ∃ k, b = bak_name path k ∧ ∀ j < k, bak_name path j ∈ existing) ∧
    (path ++ ".bak" ∈ existing → path ++ ".bak1" ∉ existing →
      safe_backup existing path = some (path ++ ".bak1")) := by
  constructor
  · intro b h
    obtain ⟨hb, k, -, hbk, hall⟩ := backup_scan_spec existing path _ 0 b h
    exact ⟨hb, k, hbk, fun j hj => hall j (Nat.zero_le j) hj⟩
  · intro h0 h1
    have key : ∀ fuel, 2 ≤ fuel → backup_scan existing path fuel 0 = some (path ++ ".bak1") := by
      intro fuel hf
      obtain ⟨f, rfl⟩ : ∃ f, fuel = f + 2 := ⟨fuel - 2, by omega⟩
      unfold backup_scan
      rw [if_pos (show bak_name path 0 ∈ existing from h0)]
      unfold backup_scan
      rw [if_neg (show bak_name path 1 ∉ existing from (bak_name_one path) ▸ h1)]
      rw [bak_name_one]
    have hlen : 0 < existing.length := List.length_pos.mpr (List.ne_nil_of_mem h0)
    exact key (existing.length + 1) (by omega)

/-- Witness for C9, scenario E: with `a.mid.bak` on disk, converting `a.mid`
backs up to `a.mid.bak1`. -/
theorem safe_backup_never_overwrites_witness :
    safe_backup ["a.mid.bak"] "a.mid" = some ("a.mid" ++ ".bak1") :=
  (safe_backup_never_overwrites ["a.mid.bak"] "a.mid").2 (by decide) (by decide)

/-- Outcome of converting one file of a batch: the file name plus either the
(total, changed, clamped) counters of `convert_midi` or the message of the
exception caught at the file boundary. The per-file body (convert, move,
backup) with its I/O is the external collaborator producing this value. -/
structure FileResult where
  name : String
  outcome : Except String (Nat × Nat × Nat)

/-- The accumulating state of App.run's batch loop. -/
structure BatchState where
  total_files : Nat
  total_events : Nat
  total_changed : Nat
  total_clamped : Nat
  failures : List String

/-- One iteration of `for p in midi_files`: a success bumps the counters, a
caught failure appends "name: message" to the failure list; nothing stops
the loop. -/
def batch_step (st : BatchState) (f : FileResult) : BatchState :=
  match f.outcome with
  | Except.ok (t, c, cl) =>
    { st with total_files := st.total_files + 1,
              total_events := st.total_events + t,
              total_changed := st.total_changed + c,
              total_clamped := st.total_clamped + cl }
  | Except.error e =>
    { st with failures := st.failures ++ [f.name ++ ": " ++ e] }

/-- The whole batch loop, started from zeroed counters. -/
def run_batch (files : List FileResult) : BatchState :=
  files.foldl batch_step ⟨0, 0, 0, 0, []⟩

/-- Whether a file's conversion raised. -/
def file_failed (f : FileResult) : Bool :=
  match f.outcome with
  | Except.ok _ => false
  | Except.error _ => true

/-- The failure message recorded for a failed file. -/
def failure_line (f : FileResult) : String :=
  match f.outcome with
  | Except.ok _ => ""
  | Except.error e => f.name ++ ": " ++ e

/-- The failure block of the summary message: `failures[:10]`, and whether
the "..." truncation line is appended (`len(failures) > 10`). -/
def batch_failure_display (st : BatchState) : List String × Bool :=
  (st.failures.take 10, decide (st.failures.length > 10))

/-- Helper: how one step changes the converted-files counter. -/
theorem batch_step_total_files (st : BatchState) (f : FileResult) :
    (batch_step st f).total_files =
      if file_failed f then st.total_files else st.total_files + 1 := by
  cases hf : f.outcome
  all_goals simp [batch_step, file_failed, hf]

/-- Helper: how one step changes the failure list. -/
theorem batch_step_failures (st : BatchState) (f : FileResult) :
    (batch_step st f).failures =
      if file_failed f then st.failures ++ [failure_line f] else st.failures := by
  cases hf : f.outcome with
  | error e => simp [batch_step, file_failed, failure_line, hf]
  | ok p => obtain ⟨t, c, cl⟩ := p; simp [batch_step, file_failed, failure_line, hf]

/-- Helper: the batch loop from any starting state counts every successful
file and records every failed file, in order. -/
theorem run_batch_general (files : List FileResult) :
    ∀ st : BatchState,
      (files.foldl batch_step st).total_files =
        st.total_files + (files.filter (fun f => !file_failed f)).length ∧
      (files.foldl batch_step st).failures =
        st.failures ++ (files.filter (fun f => file_failed f)).map failure_line := by
  induction files with
  | nil => intro st; simp
  | cons f rest ih =>
    intro st
    obtain ⟨h1, h2⟩ := ih (batch_step st f)
    simp only [List.foldl_cons]
    constructor
    · rw [h1, batch_step_total_files]
      cases hff : file_failed f
      all_goals simp [List.filter_cons, hff]
      all_goals omega
    · rw [h2, batch_step_failures]
      cases hff : file_failed f <;> simp [List.filter_cons, hff]

/-- C10: per-file failures never abort the batch: every successful file is
counted no matter where failures occur, every failure is recorded as
"name: message" in order, succeeded plus failed equals discovered, and the
summary shows at most 10 failure messages with the truncation indicator
exactly when more than 10 exist. -/
theorem batch_failure_isolation (files : List FileResult) :
    (run_batch files).total_files = (files.filter (fun f => !file_failed f)).length ∧
    (run_batch files).failures = (files.filter (fun f => file_failed f)).map failure_line ∧
    (run_batch files).total_files + (run_batch files).failures.length = files.length ∧
    (batch_failure_display (run_batch files)).1.length ≤ 10 ∧
    ((batch_failure_display (run_batch files)).2 = true ↔
      10 < (run_batch files).failures.length) := by
  obtain ⟨h1, h2⟩ := run_batch_general files ⟨0, 0, 0, 0, []⟩
  have h1' : (run_batch files).total_files =
      (files.filter (fun f => !file_failed f)).length := by simpa [run_batch] using h1
  have h2' : (run_batch files).failures =
      (files.filter (fun f => file_failed f)).map failure_line := by simpa [run_batch] using h2
  refine ⟨h1', h2', ?_, ?_, ?_⟩
  · rw [h1', h2', List.length_map]
    have := List.length_eq_length_filter_add (l := files) (fun f => file_failed f)
    simp only at this
    omega
  · simp [batch_failure_display]
  · simp [batch_failure_display]
